import Mathlib

set_option maxHeartbeats 2000000
set_option maxRecDepth 100000

/-- Key codes appearing in the generated Karabiner configuration:
the 26 letters, the number row (`num1` .. `num9`, `num0` stand for the
key codes `"1"` .. `"9"`, `"0"`), punctuation/whitespace, and the output
keys used by the vim layer and the tap/hold rules. -/
inductive Key
  | a | b | c | d | e | f | g | h | i | j | k | l | m
  | n | o | p | q | r | s | t | u | v | w | x | y | z
  | num1 | num2 | num3 | num4 | num5 | num6 | num7 | num8 | num9 | num0
  | spacebar | return_or_enter | comma | period | slash | semicolon | quote
  | open_bracket | close_bracket | hyphen | equal_sign | backslash
  | grave_accent_and_tilde
  | left_arrow | down_arrow | up_arrow | right_arrow | page_up | page_down
  | f1 | f2 | f3 | f4 | f5 | f6 | f7 | f8 | f9 | f10 | f11 | f12
  | insert | delete_forward
  | escape | left_control | left_shift | right_shift
  deriving DecidableEq

/-- Karabiner variables set by the generated configuration:
the three state flags of the F key, the single-slot queue variables
`queued_X`, the multi-slot queue variables `queued_X_slot`, and the
armed-once flags `X_pressed_once`. -/
inductive V
  | f_pressed
  | f_tapping
  | f_was_modifier
  | queued (k : Key)
  | queued_slot (k : Key) (slot : Nat)
  | pressed_once (k : Key)
  deriving DecidableEq

/-- A `variable_if` condition: the variable must hold the given value. -/
structure Cond where
  var : V
  value : Nat
  deriving DecidableEq

/-- A to-event action: either emit a key code (with optional modifiers)
or set a variable. -/
inductive ToAct
  | keyOut (k : Key) (mods : List Key)
  | setVar (v : V) (value : Nat)
  deriving DecidableEq

/-- One entry of a `to` / `to_if_alone` / `to_if_held_down` /
`to_after_key_up` array: an action, the `lazy` flag, and the entry's own
`conditions` array. -/
structure ToEntry where
  act : ToAct
  isLazy : Bool
  conds : List Cond
  deriving DecidableEq

/-- Shorthand for an unconditional key-code entry. -/
def toKey (k : Key) : ToEntry :=
  { act := ToAct.keyOut k [], isLazy := false, conds := [] }

/-- Shorthand for an unconditional key-code entry with modifiers. -/
def toKeyMods (k : Key) (mods : List Key) : ToEntry :=
  { act := ToAct.keyOut k mods, isLazy := false, conds := [] }

/-- Shorthand for a conditional key-code entry. -/
def toKeyIf (k : Key) (cs : List Cond) : ToEntry :=
  { act := ToAct.keyOut k [], isLazy := false, conds := cs }

/-- Shorthand for an unconditional `set_variable` entry. -/
def setv (v : V) (n : Nat) : ToEntry :=
  { act := ToAct.setVar v n, isLazy := false, conds := [] }

/-- Shorthand for a conditional `set_variable` entry. -/
def setvIf (v : V) (n : Nat) (cs : List Cond) : ToEntry :=
  { act := ToAct.setVar v n, isLazy := false, conds := cs }

/-- A `from.modifiers.optional` element; the generator only ever emits
`"any"`. -/
inductive FromModifier
  | any
  deriving DecidableEq

/-- The `from` block of a manipulator: a key code plus the optional
modifiers array. -/
structure FromDef where
  key_code : Key
  optionalModifiers : List FromModifier
  deriving DecidableEq

/-- The `parameters` block: the `basic.to_if_alone_timeout_milliseconds`
and `basic.to_if_held_down_threshold_milliseconds` values, when present. -/
structure Params where
  alone_timeout : Option Nat
  held_threshold : Option Nat
  deriving DecidableEq

/-- A Karabiner `basic` manipulator as emitted by the generator.  Absent
arrays are represented by `[]`; absent parameters by `none`.
(`to_delayed_action` is accepted by `create_basic_manipulator` in the
source but never used by any caller, so it is omitted here.) -/
structure Manip where
  from_def : FromDef
  to_events : List ToEntry
  to_if_alone : List ToEntry
  to_if_held_down : List ToEntry
  to_after_key_up : List ToEntry
  conditions : List Cond
  parameters : Params
  deriving DecidableEq

/-- A rule: a description plus its manipulator list. -/
structure Rule where
  description : String
  manipulators : List Manip

/-- The whole configuration: a title plus its rules. -/
structure Config where
  title : String
  rules : List Rule

/-- TAPPING_TERM_MS: delay before F tap becomes hold (150 in the source). -/
def TAPPING_TERM_MS : Nat := 150

/-- VIM_KEY_HOLD_MS: threshold for vim key hold-to-activate,
defined in the source as `TAPPING_TERM_MS + 10`. -/
def VIM_KEY_HOLD_MS : Nat := TAPPING_TERM_MS + 10

/-- MULTI_SLOT_KEYS: letters with 3 queue slots. -/
def MULTI_SLOT_KEYS : List Key := [Key.e, Key.o, Key.p, Key.s, Key.z]

/-- MULTI_SLOT_COUNT: number of slots per multi-slot key. -/
def MULTI_SLOT_COUNT : Nat := 3

/-- The 26 letter key codes, in alphabetical order (`chr` range in the
source). -/
def LETTERS : List Key :=
  [Key.a, Key.b, Key.c, Key.d, Key.e, Key.f, Key.g, Key.h, Key.i, Key.j,
   Key.k, Key.l, Key.m, Key.n, Key.o, Key.p, Key.q, Key.r, Key.s, Key.t,
   Key.u, Key.v, Key.w, Key.x, Key.y, Key.z]

/-- ALL_ALPHA_KEYS: all alphabet keys except `f`. -/
def ALL_ALPHA_KEYS : List Key := LETTERS.filter (fun c => decide (c ≠ Key.f))

/-- VIM_NAV_KEYS: the navigation keys of the vim layer. -/
def VIM_NAV_KEYS : List Key := [Key.h, Key.j, Key.k, Key.l, Key.u, Key.d]

/-- QUEUE_KEYS: the alphabet keys queued during the tapping window. -/
def QUEUE_KEYS : List Key := ALL_ALPHA_KEYS

/-- ADDITIONAL_QUEUE_KEYS: the non-alphabet keys queued during the
tapping window, in the order listed in the source. -/
def ADDITIONAL_QUEUE_KEYS : List Key :=
  [Key.spacebar,
   Key.return_or_enter,
   Key.comma, Key.period, Key.slash,
   Key.semicolon, Key.quote,
   Key.open_bracket, Key.close_bracket,
   Key.num1, Key.num2, Key.num3, Key.num4, Key.num5,
   Key.num6, Key.num7, Key.num8, Key.num9, Key.num0,
   Key.hyphen, Key.equal_sign, Key.backslash, Key.grave_accent_and_tilde]

/-- VIM_LAYER_NAV_MAPPINGS: navigation key → arrow/page key, in the
source's insertion order. -/
def VIM_LAYER_NAV_MAPPINGS : List (Key × Key) :=
  [(Key.h, Key.left_arrow),
   (Key.j, Key.down_arrow),
   (Key.k, Key.up_arrow),
   (Key.l, Key.right_arrow),
   (Key.u, Key.page_up),
   (Key.d, Key.page_down)]

/-- VIM_LAYER_FKEY_MAPPINGS: number row → F1-F12 plus insert/delete, in
the source's insertion order. -/
def VIM_LAYER_FKEY_MAPPINGS : List (Key × Key) :=
  [(Key.num1, Key.f1), (Key.num2, Key.f2), (Key.num3, Key.f3),
   (Key.num4, Key.f4), (Key.num5, Key.f5), (Key.num6, Key.f6),
   (Key.num7, Key.f7), (Key.num8, Key.f8), (Key.num9, Key.f9),
   (Key.num0, Key.f10),
   (Key.hyphen, Key.f11),
   (Key.equal_sign, Key.f12),
   (Key.backslash, Key.insert),
   (Key.grave_accent_and_tilde, Key.delete_forward)]

/-- VIM_FKEY_KEYS: the keys of `VIM_LAYER_FKEY_MAPPINGS`. -/
def VIM_FKEY_KEYS : List Key := VIM_LAYER_FKEY_MAPPINGS.map (fun p => p.1)

/-- Looks up a navigation key's mapped output (total on `VIM_NAV_KEYS`;
the default branch is never reached for those keys). -/
def navTarget (k : Key) : Key :=
  match VIM_LAYER_NAV_MAPPINGS.find? (fun p => decide (p.1 = k)) with
  | some p => p.2
  | none => k

/-- Looks up a function-row key's mapped output (total on
`VIM_FKEY_KEYS`; the default branch is never reached for those keys). -/
def fkeyTarget (k : Key) : Key :=
  match VIM_LAYER_FKEY_MAPPINGS.find? (fun p => decide (p.1 = k)) with
  | some p => p.2
  | none => k

/-- create_basic_manipulator: the shared builder.  The `from` block
always carries `modifiers: {optional: [any]}`. -/
def create_basic_manipulator (from_key : Key)
    (toEvents : Option (List ToEntry))
    (to_if_alone : Option (List ToEntry))
    (to_if_held_down : Option (List ToEntry))
    (to_after_key_up : Option (List ToEntry))
    (conditions : Option (List Cond))
    (parameters : Option Params) : Manip :=
  { from_def := { key_code := from_key, optionalModifiers := [FromModifier.any] }
    to_events := toEvents.getD []
    to_if_alone := to_if_alone.getD []
    to_if_held_down := to_if_held_down.getD []
    to_after_key_up := to_after_key_up.getD []
    conditions := conditions.getD []
    parameters := parameters.getD { alone_timeout := none, held_threshold := none } }

/-- create_ctrl_rule: left control — hold for Ctrl (lazy), tap for Esc. -/
def create_ctrl_rule : Rule :=
  { description := "Left Control: Hold for Ctrl, Tap for Esc"
    manipulators :=
      [create_basic_manipulator Key.left_control
        (some [{ act := ToAct.keyOut Key.left_control [], isLazy := true, conds := [] }])
        (some [toKey Key.escape])
        (some [toKey Key.left_control])
        none
        none
        (some { alone_timeout := some TAPPING_TERM_MS,
                held_threshold := some TAPPING_TERM_MS })] }

/-- create_shift_rule: a shift key — hold for Shift, tap for a
parenthesis (shift + 9 or shift + 0). -/
def create_shift_rule (isLeft : Bool) : Rule :=
  { description := if isLeft then "Left Shift: Hold for Shift, Tap for open paren"
                   else "Right Shift: Hold for Shift, Tap for close paren"
    manipulators :=
      [create_basic_manipulator (if isLeft then Key.left_shift else Key.right_shift)
        (some [toKey (if isLeft then Key.left_shift else Key.right_shift)])
        (some [toKeyMods (if isLeft then Key.num9 else Key.num0)
                 [if isLeft then Key.left_shift else Key.right_shift]])
        none
        none
        none
        (some { alone_timeout := some TAPPING_TERM_MS, held_threshold := none })] }

/-- The `to_after_key_up` pair for one slot of a multi-slot key: emit the
key if that slot is filled (and F was not a modifier), then clear the
slot. -/
def multiSlotAfterEntries (k : Key) : List ToEntry :=
  (List.range' 1 MULTI_SLOT_COUNT).flatMap (fun slot =>
    [toKeyIf k [{ var := V.queued_slot k slot, value := 1 },
                { var := V.f_was_modifier, value := 0 }],
     setv (V.queued_slot k slot) 0])

/-- The `to_after_key_up` pair for a single-slot key: emit the key if
queued (and F was not a modifier), then clear the variable. -/
def singleAfterEntries (k : Key) : List ToEntry :=
  [toKeyIf k [{ var := V.queued k, value := 1 },
              { var := V.f_was_modifier, value := 0 }],
   setv (V.queued k) 0]

/-- The full `to_after_key_up` array of the main F manipulator: replay
`f` (if F was not a modifier), replay each queued alphabet key (clearing
its variable), replay each queued additional key, then clear the state
flags and all `pressed_once` flags. -/
def main_to_after_key_up : List ToEntry :=
  [toKeyIf Key.f [{ var := V.f_was_modifier, value := 0 }]] ++
  QUEUE_KEYS.flatMap (fun k =>
    if k ∈ MULTI_SLOT_KEYS then multiSlotAfterEntries k else singleAfterEntries k) ++
  ADDITIONAL_QUEUE_KEYS.flatMap singleAfterEntries ++
  [setv V.f_tapping 0, setv V.f_pressed 0, setv V.f_was_modifier 0] ++
  VIM_NAV_KEYS.map (fun k => setv (V.pressed_once k) 0) ++
  VIM_FKEY_KEYS.map (fun k => setv (V.pressed_once k) 0)

/-- create_f_key_main_manipulator: the main F manipulator — press sets
`f_tapping`/`f_pressed`, the held-down threshold sets `f_was_modifier`,
release replays and clears everything. -/
def create_f_key_main_manipulator : Manip :=
  create_basic_manipulator Key.f
    (some [setv V.f_tapping 1, setv V.f_pressed 1])
    none
    (some [setv V.f_tapping 0, setv V.f_was_modifier 1])
    (some main_to_after_key_up)
    none
    (some { alone_timeout := none, held_threshold := some TAPPING_TERM_MS })

/-- create_queue_manipulator: intercept a key during the tapping window
(`f_pressed=1`, `f_was_modifier=0`) and set its queue variable instead of
emitting it; multi-slot keys additionally require the previous slot
filled and the current slot empty; vim keys also set their
`pressed_once` flag. -/
def create_queue_manipulator (key : Key) (slot : Option Nat)
    (to_if_held_down : Option (List ToEntry))
    (to_after_key_up : Option (List ToEntry))
    (parameters : Option Params) : Manip :=
  let base_conds : List Cond :=
    [{ var := V.f_pressed, value := 1 }, { var := V.f_was_modifier, value := 0 }]
  let isVim : Bool := decide (key ∈ VIM_NAV_KEYS) || decide (key ∈ VIM_FKEY_KEYS)
  match slot with
  | none =>
    let to_actions :=
      [setv (V.queued key) 1] ++
      (if isVim then [setv (V.pressed_once key) 1] else [])
    create_basic_manipulator key (some to_actions) none
      to_if_held_down to_after_key_up (some base_conds) parameters
  | some n =>
    let conds :=
      base_conds ++
      (if n > 1 then [{ var := V.queued_slot key (n - 1), value := 1 }] else []) ++
      [{ var := V.queued_slot key n, value := 0 }]
    let to_actions :=
      [setv (V.queued_slot key n) 1] ++
      (if isVim then [setv (V.pressed_once key) 1] else [])
    create_basic_manipulator key (some to_actions) none
      to_if_held_down to_after_key_up (some conds) parameters

/-- create_vim_second_press_activator: on the second press of a vim key
while F is held and still in the tapping window, activate vim mode, clear
that key's queue variable, and emit the mapped output. -/
def create_vim_second_press_activator (key target : Key) : Manip :=
  { from_def := { key_code := key, optionalModifiers := [FromModifier.any] }
    to_events :=
      [setv V.f_was_modifier 1,
       setv (V.queued key) 0,
       toKey target]
    to_if_alone := []
    to_if_held_down := []
    to_after_key_up := []
    conditions :=
      [{ var := V.f_pressed, value := 1 },
       { var := V.pressed_once key, value := 1 },
       { var := V.f_was_modifier, value := 0 }]
    parameters := { alone_timeout := none, held_threshold := none } }

/-- create_vim_layer_manipulator_with_variables: when F is held and vim
mode is active, transform the key to its mapped output. -/
def create_vim_layer_manipulator_with_variables (key target : Key) : Manip :=
  { from_def := { key_code := key, optionalModifiers := [FromModifier.any] }
    to_events := [toKey target]
    to_if_alone := []
    to_if_held_down := []
    to_after_key_up := []
    conditions :=
      [{ var := V.f_pressed, value := 1 },
       { var := V.f_was_modifier, value := 1 }]
    parameters := { alone_timeout := none, held_threshold := none } }

/-- Hold-to-activate actions for a vim nav key: activate vim mode, clear
the queue variable, emit the mapped arrow/page key. -/
def nav_hold_actions (k : Key) : List ToEntry :=
  [setv V.f_was_modifier 1,
   setv (V.queued k) 0,
   toKey (navTarget k)]

/-- Release-to-activate actions for a vim nav key: if F is still held and
vim mode not yet active, emit the mapped key and activate vim mode, then
clear the queue variable. -/
def nav_release_actions (k : Key) : List ToEntry :=
  [toKeyIf (navTarget k)
     [{ var := V.f_pressed, value := 1 }, { var := V.f_was_modifier, value := 0 }],
   setvIf V.f_was_modifier 1 [{ var := V.f_pressed, value := 1 }],
   setv (V.queued k) 0]

/-- Hold-to-activate actions for a vim function-row key. -/
def fkey_hold_actions (k : Key) : List ToEntry :=
  [setv V.f_was_modifier 1,
   setv (V.queued k) 0,
   toKey (fkeyTarget k)]

/-- Release-to-activate actions for a vim function-row key. -/
def fkey_release_actions (k : Key) : List ToEntry :=
  [toKeyIf (fkeyTarget k)
     [{ var := V.f_pressed, value := 1 }, { var := V.f_was_modifier, value := 0 }],
   setvIf V.f_was_modifier 1 [{ var := V.f_pressed, value := 1 }],
   setv (V.queued k) 0]

/-- The queue manipulators for the alphabet keys, in `QUEUE_KEYS` order:
multi-slot keys get one manipulator per slot, vim nav keys get the
hold/release activation extras. -/
def queue_alpha_manipulators : List Manip :=
  QUEUE_KEYS.flatMap (fun k =>
    if k ∈ MULTI_SLOT_KEYS then
      (List.range' 1 MULTI_SLOT_COUNT).map (fun n =>
        create_queue_manipulator k (some n) none none none)
    else if k ∈ VIM_NAV_KEYS then
      [create_queue_manipulator k none
        (some (nav_hold_actions k))
        (some (nav_release_actions k))
        (some { alone_timeout := none, held_threshold := some VIM_KEY_HOLD_MS })]
    else
      [create_queue_manipulator k none none none none])

/-- The queue manipulators for the additional keys, in
`ADDITIONAL_QUEUE_KEYS` order: vim function-row keys get the
hold/release activation extras. -/
def queue_additional_manipulators : List Manip :=
  ADDITIONAL_QUEUE_KEYS.map (fun k =>
    if k ∈ VIM_FKEY_KEYS then
      create_queue_manipulator k none
        (some (fkey_hold_actions k))
        (some (fkey_release_actions k))
        (some { alone_timeout := none, held_threshold := some VIM_KEY_HOLD_MS })
    else
      create_queue_manipulator k none none none none)

/-- The second-press activators, nav keys first then function-row keys. -/
def second_press_activators : List Manip :=
  VIM_LAYER_NAV_MAPPINGS.map (fun p => create_vim_second_press_activator p.1 p.2) ++
  VIM_LAYER_FKEY_MAPPINGS.map (fun p => create_vim_second_press_activator p.1 p.2)

/-- The vim layer dispatch manipulators, nav keys first then
function-row keys. -/
def vim_layer_manipulators : List Manip :=
  VIM_LAYER_NAV_MAPPINGS.map (fun p => create_vim_layer_manipulator_with_variables p.1 p.2) ++
  VIM_LAYER_FKEY_MAPPINGS.map (fun p => create_vim_layer_manipulator_with_variables p.1 p.2)

/-- create_f_rule: the F rule's manipulators, in the order the source
appends them — main F manipulator, second-press activators, vim layer
manipulators, queue manipulators (alphabet then additional). -/
def create_f_rule : Rule :=
  { description := "F key Vim layer"
    manipulators :=
      [create_f_key_main_manipulator] ++
      second_press_activators ++
      vim_layer_manipulators ++
      queue_alpha_manipulators ++
      queue_additional_manipulators }

/-- generate_config: the complete configuration — control rule, left and
right shift rules, then the F rule. -/
def generate_config : Config :=
  { title := "aki_null keymap (TMK)"
    rules :=
      [create_ctrl_rule,
       create_shift_rule true,
       create_shift_rule false,
       create_f_rule] }

/-- All manipulators of the configuration, flattened in rule order; this
is the order Karabiner evaluates them in ("first match wins"). -/
def allManipulators : List Manip :=
  generate_config.rules.flatMap (fun r => r.manipulators)

/-- Runtime variable state: every Karabiner variable holds a `Nat`
(unset variables read as 0). -/
def State : Type := V → Nat

/-- A `variable_if` condition holds when the variable has the value. -/
def evalCond (s : State) (c : Cond) : Bool := decide (s c.var = c.value)

/-- All conditions of a list hold. -/
def evalConds (s : State) (cs : List Cond) : Bool := cs.all (evalCond s)

/-- Run a list of to-events in order: a key-code entry whose conditions
hold emits its key; a `set_variable` entry whose conditions hold updates
the state; entries whose conditions fail are skipped.  Returns the
emitted keys (in order) and the final state. -/
def runTo : List ToEntry → State → List Key × State
  | [], s => ([], s)
  | e :: rest, s =>
    match e.act with
    | ToAct.keyOut k _ =>
      let r := runTo rest s
      if evalConds s e.conds then (k :: r.1, r.2) else r
    | ToAct.setVar v n =>
      if evalConds s e.conds then runTo rest (Function.update s v n)
      else runTo rest s

/-- A manipulator matches a key-down event when its from-key is the
pressed key and all its conditions hold. -/
def manipMatchesB (s : State) (k : Key) (m : Manip) : Bool :=
  decide (m.from_def.key_code = k) && evalConds s m.conditions

/-- First matching manipulator, in list order (Karabiner's "first match
wins" evaluation). -/
def firstMatch (ms : List Manip) (k : Key) (s : State) : Option Manip :=
  ms.find? (manipMatchesB s k)

/-- Process a key-down event: the first matching manipulator's `to`
events run; if no manipulator matches, the event passes through
unmodified (the key itself is emitted and the state is unchanged). -/
def processDown (ms : List Manip) (k : Key) (s : State) : List Key × State :=
  match firstMatch ms k s with
  | some m => runTo m.to_events s
  | none => ([k], s)

/-- Spec-side rendering of the replay order for letter keys: each queued
letter in `QUEUE_KEYS` (alphabetical) order, a multi-slot key
contributing its filled slots in slot order. -/
def specReplayLetters (s : State) : List Key :=
  QUEUE_KEYS.flatMap (fun k =>
    if k ∈ MULTI_SLOT_KEYS then
      (List.range' 1 MULTI_SLOT_COUNT).flatMap (fun slot =>
        if s (V.queued_slot k slot) = 1 then [k] else [])
    else
      if s (V.queued k) = 1 then [k] else [])

/-- Spec-side rendering of the replay order for the additional keys:
each queued key of `ADDITIONAL_QUEUE_KEYS`, in that fixed list order. -/
def specReplayAdditional (s : State) : List Key :=
  ADDITIONAL_QUEUE_KEYS.flatMap (fun k =>
    if s (V.queued k) = 1 then [k] else [])

/-- Alphabetical position of a letter key. -/
def alphaIdx (k : Key) : Nat := LETTERS.findIdx (fun x => decide (x = k))

/-- Whether some entry of the list writes (sets) the given variable. -/
def writesVar : List ToEntry → V → Bool
  | [], _ => false
  | e :: rest, v =>
    (match e.act with
     | ToAct.setVar w _ => decide (w = v)
     | ToAct.keyOut _ _ => false) || writesVar rest v

/-- Whether running the list always leaves the variable at 0: some entry
sets it to 0 unconditionally and no later entry writes it. -/
def clearedBy : List ToEntry → V → Bool
  | [], _ => false
  | e :: rest, v =>
    clearedBy rest v ||
    (match e.act with
     | ToAct.setVar w n =>
       decide (w = v) && decide (n = 0) && decide (e.conds = []) && !writesVar rest v
     | ToAct.keyOut _ _ => false)

/-- Conservative non-interference check: every condition of every entry
reads only variables that no earlier entry has written (every
`set_variable` counts as a write). -/
def noClobber : List ToEntry → List V → Bool
  | [], _ => true
  | e :: rest, written =>
    e.conds.all (fun c => !written.any (fun w => decide (w = c.var))) &&
    (match e.act with
     | ToAct.setVar w _ => noClobber rest (w :: written)
     | ToAct.keyOut _ _ => noClobber rest written)

/-- The emitted keys of a to-event list when every condition is read in
the initial state (valid when `noClobber` holds). -/
def staticOut (acts : List ToEntry) (s : State) : List Key :=
  acts.flatMap (fun e =>
    if evalConds s e.conds then
      match e.act with
      | ToAct.keyOut k _ => [k]
      | ToAct.setVar _ _ => []
    else [])

/-- Whether every key-code entry of the list carries the given condition
(so the whole list emits nothing when that condition fails). -/
def allEmitsRequire (acts : List ToEntry) (c : Cond) : Bool :=
  acts.all (fun e =>
    match e.act with
    | ToAct.keyOut _ _ => e.conds.any (fun c2 => decide (c2 = c))
    | ToAct.setVar _ _ => true)

/-- All queue variables of the configuration (single-slot and
multi-slot), in replay order. -/
def allQueueVars : List V :=
  QUEUE_KEYS.flatMap (fun k =>
    if k ∈ MULTI_SLOT_KEYS then
      (List.range' 1 MULTI_SLOT_COUNT).map (V.queued_slot k)
    else [V.queued k]) ++
  ADDITIONAL_QUEUE_KEYS.map V.queued

/-- All armed-once flags of the configuration. -/
def allOnceVars : List V :=
  VIM_NAV_KEYS.map V.pressed_once ++ VIM_FKEY_KEYS.map V.pressed_once

/-- Every per-episode variable: the three state flags, the queue
variables, and the armed-once flags. -/
def episodeVars : List V :=
  [V.f_pressed, V.f_tapping, V.f_was_modifier] ++ allQueueVars ++ allOnceVars

/-- Number of filled slots of a multi-slot key (meaningful under prefix
occupancy). -/
def filledCount (s : State) (k : Key) : Nat :=
  if s (V.queued_slot k 1) = 1 then
    if s (V.queued_slot k 2) = 1 then
      if s (V.queued_slot k 3) = 1 then 3 else 2
    else 1
  else 0

/-- Prefix occupancy: slot 2 filled only if slot 1 is, slot 3 only if
slot 2 is. -/
def prefixOcc (s : State) (k : Key) : Prop :=
  (s (V.queued_slot k 2) = 1 → s (V.queued_slot k 1) = 1) ∧
  (s (V.queued_slot k 3) = 1 → s (V.queued_slot k 2) = 1)

/-- Build a concrete state from an association list (unlisted variables
read 0). -/
def mkState (l : List (V × Nat)) : State := fun v =>
  match l.find? (fun p => decide (p.1 = v)) with
  | some p => p.2
  | none => 0

/-- Concrete state: d, i and spacebar queued during a Pending episode. -/
def sDiff : State :=
  mkState [(V.f_pressed, 1), (V.queued Key.d, 1), (V.queued Key.i, 1),
           (V.queued Key.spacebar, 1)]

/-- Concrete state: all three slots of `o` filled during a Pending
episode. -/
def sOverflowO : State :=
  mkState [(V.f_pressed, 1), (V.queued_slot Key.o 1, 1),
           (V.queued_slot Key.o 2, 1), (V.queued_slot Key.o 3, 1)]

/-- Concrete state: `d` queued during a Pending episode. -/
def sQueuedD : State :=
  mkState [(V.f_pressed, 1), (V.queued Key.d, 1)]

/-- Concrete state: `j` pressed once (queued and armed) during a Pending
episode. -/
def sOnceJ : State :=
  mkState [(V.f_pressed, 1), (V.queued Key.j, 1), (V.pressed_once Key.j, 1)]

/-- Concrete state: vim mode active (F held past the tapping term). -/
def sVimActive : State :=
  mkState [(V.f_pressed, 1), (V.f_was_modifier, 1)]

/-- Concrete state: slot 1 of `o` filled during a Pending episode. -/
def sSlotO1 : State :=
  mkState [(V.f_pressed, 1), (V.queued_slot Key.o 1, 1)]

/-- The nav and function-row dispatch pairs together: every secondary
key with a layer-dispatch mapping, with its mapped output. -/
def dispatchPairs : List (Key × Key) :=
  VIM_LAYER_NAV_MAPPINGS ++ VIM_LAYER_FKEY_MAPPINGS

theorem evalConds_congr (cs : List Cond) (s t : State)
    (h : ∀ c ∈ cs, s c.var = t c.var) :
    evalConds s cs = evalConds t cs := by
  unfold evalConds
  induction cs with
  | nil => rfl
  | cons c rest ih =>
    have hc : s c.var = t c.var := h c (List.mem_cons_self c rest)
    have hr := ih (fun c2 hc2 => h c2 (List.mem_cons_of_mem c hc2))
    simp only [List.all_cons, evalCond, hc, hr]

theorem runTo_snd_of_not_writes (acts : List ToEntry) (v : V) :
    writesVar acts v = false → ∀ s : State, ((runTo acts s).2) v = s v := by
  induction acts with
  | nil => intro _ s; rfl
  | cons e rest ih =>
    intro h s
    rcases e with ⟨act, lz, conds⟩
    cases act with
    | keyOut k mods =>
      simp [writesVar] at h
      by_cases hc : evalConds s conds = true
      · simp [runTo, hc, ih h s]
      · simp [runTo, hc, ih h s]
    | setVar w n =>
      simp [writesVar] at h
      obtain ⟨hw, hrest⟩ := h
      by_cases hc : evalConds s conds = true
      · simp only [runTo, hc, if_true]
        rw [ih hrest]
        exact Function.update_noteq (by exact fun hvw => hw hvw.symm) n s
      · simp only [runTo, hc, if_false, Bool.false_eq_true]
        exact ih hrest s

theorem runTo_snd_of_cleared (acts : List ToEntry) (v : V) :
    clearedBy acts v = true → ∀ s : State, ((runTo acts s).2) v = 0 := by
  induction acts with
  | nil => intro h; simp [clearedBy] at h
  | cons e rest ih =>
    intro h s
    rcases e with ⟨act, lz, conds⟩
    cases act with
    | keyOut k mods =>
      rw [clearedBy] at h
      simp only [Bool.or_false] at h
      by_cases hc : evalConds s conds = true
      · simp [runTo, hc, ih h]
      · simp [runTo, hc, ih h]
    | setVar w n =>
      rw [clearedBy] at h
      rcases Bool.or_eq_true_iff.mp h with h1 | h2
      · by_cases hc : evalConds s conds = true
        · simp [runTo, hc, ih h1]
        · simp [runTo, hc, ih h1]
      · have hw : w = v := by
          have := (Bool.and_eq_true_iff.mp h2).1
          have := (Bool.and_eq_true_iff.mp this).1
          have := (Bool.and_eq_true_iff.mp this).1
          exact of_decide_eq_true this
        have hn : n = 0 := by
          have := (Bool.and_eq_true_iff.mp h2).1
          have := (Bool.and_eq_true_iff.mp this).1
          have := (Bool.and_eq_true_iff.mp this).2
          exact of_decide_eq_true this
        have hcs : conds = [] := by
          have := (Bool.and_eq_true_iff.mp h2).1
          have := (Bool.and_eq_true_iff.mp this).2
          exact of_decide_eq_true this
        have hnw : writesVar rest v = false := by
          have hx := (Bool.and_eq_true_iff.mp h2).2
          simpa using hx
        have hc : evalConds s conds = true := by rw [hcs]; rfl
        simp only [runTo, hc, if_true]
        rw [runTo_snd_of_not_writes rest v hnw]
        rw [hw, hn]
        simp [Function.update_same]

theorem runTo_fst_static (acts : List ToEntry) :
    ∀ (written : List V) (s sOrig : State),
      (∀ v : V, written.any (fun w => decide (w = v)) = false → s v = sOrig v) →
      noClobber acts written = true →
      (runTo acts s).1 = staticOut acts sOrig := by
  induction acts with
  | nil => intro written s sOrig _ _; rfl
  | cons e rest ih =>
    intro written s sOrig hagree h
    rcases e with ⟨act, lz, conds⟩
    rw [noClobber] at h
    obtain ⟨hconds, hrest⟩ := Bool.and_eq_true_iff.mp h
    have hcondeq : evalConds s conds = evalConds sOrig conds := by
      apply evalConds_congr
      intro c hcmem
      apply hagree
      have hx := List.all_eq_true.mp hconds c hcmem
      simpa using hx
    cases act with
    | keyOut k mods =>
      have ihr := ih written s sOrig hagree hrest
      by_cases hc : evalConds sOrig conds = true
      · simp [runTo, staticOut, hcondeq, hc, ihr]
      · have hc2 : evalConds sOrig conds = false := by
          simpa using hc
        simp [runTo, staticOut, hcondeq, hc2, ihr]
    | setVar w n =>
      have hagree2 : ∀ v : V,
          ((w :: written).any (fun x => decide (x = v)) = false) →
          (Function.update s w n) v = sOrig v := by
        intro v hv
        simp only [List.any_cons, Bool.or_eq_false_iff] at hv
        obtain ⟨hwv, hwr⟩ := hv
        have hwv2 : w ≠ v := by simpa using hwv
        rw [Function.update_noteq (Ne.symm hwv2) n s]
        exact hagree v hwr
      have hagree3 : ∀ v : V,
          ((w :: written).any (fun x => decide (x = v)) = false) →
          s v = sOrig v := by
        intro v hv
        simp only [List.any_cons, Bool.or_eq_false_iff] at hv
        exact hagree v hv.2
      by_cases hc : evalConds s conds = true
      · have ihr := ih (w :: written) (Function.update s w n) sOrig hagree2 hrest
        simp [runTo, staticOut, hc, hcondeq ▸ hc, ihr]
      · have ihr := ih (w :: written) s sOrig hagree3 hrest
        have hc2 : evalConds s conds = false := by simpa using hc
        have hc3 : evalConds sOrig conds = false := hcondeq ▸ hc2
        simp [runTo, staticOut, hc2, hc3, ihr]

theorem runTo_fst_staticOut (acts : List ToEntry) (s : State)
    (h : noClobber acts [] = true) :
    (runTo acts s).1 = staticOut acts s :=
  runTo_fst_static acts [] s s (fun _ _ => rfl) h

theorem staticOut_empty_of_cond_fails (acts : List ToEntry) (c : Cond) (s : State)
    (hreq : allEmitsRequire acts c = true) (hfail : ¬ s c.var = c.value) :
    staticOut acts s = [] := by
  induction acts with
  | nil => rfl
  | cons e rest ih =>
    rw [allEmitsRequire, List.all_cons] at hreq
    obtain ⟨he, hrest⟩ := Bool.and_eq_true_iff.mp hreq
    have ihr := ih hrest
    rcases e with ⟨act, lz, conds⟩
    cases act with
    | keyOut k mods =>
      have hcmem : c ∈ conds := by
        simp only at he
        obtain ⟨c2, hc2mem, hc2eq⟩ := List.any_eq_true.mp he
        exact (of_decide_eq_true hc2eq) ▸ hc2mem
      have hce : evalConds s conds = false := by
        by_cases hec : evalConds s conds = true
        · have hx := List.all_eq_true.mp hec c hcmem
          exact absurd (of_decide_eq_true hx) hfail
        · simpa using hec
      simp [staticOut, hce] at ihr ⊢
      exact ihr
    | setVar w n =>
      by_cases hc : evalConds s conds = true
      · simp [staticOut, hc] at ihr ⊢
        exact ihr
      · have hc2 : evalConds s conds = false := by simpa using hc
        simp [staticOut, hc2] at ihr ⊢
        exact ihr

theorem main_after_up_fst_eq (s : State) :
    (runTo main_to_after_key_up s).1 = staticOut main_to_after_key_up s :=
  runTo_fst_staticOut _ _ (by decide)

theorem replay_empty_of_modifier (s : State) (h : s V.f_was_modifier = 1) :
    (runTo main_to_after_key_up s).1 = [] := by
  rw [main_after_up_fst_eq]
  apply staticOut_empty_of_cond_fails main_to_after_key_up
    { var := V.f_was_modifier, value := 0 } s (by decide)
  simp [h]

theorem firstMatch_cons (m : Manip) (ms : List Manip) (k : Key) (s : State) :
    firstMatch (m :: ms) k s =
      if manipMatchesB s k m then some m else firstMatch ms k s := by
  by_cases h : manipMatchesB s k m
  · simp [firstMatch, List.find?_cons, h]
  · have h2 : manipMatchesB s k m = false := by simpa using h
    simp [firstMatch, List.find?_cons, h2]

theorem firstMatch_append_none (xs ys : List Manip) (k : Key) (s : State)
    (h : firstMatch xs k s = none) :
    firstMatch (xs ++ ys) k s = firstMatch ys k s := by
  induction xs with
  | nil => rfl
  | cons m rest ih =>
    rw [List.cons_append, firstMatch_cons]
    rw [firstMatch_cons] at h
    by_cases hm : manipMatchesB s k m
    · simp [hm] at h
    · have hm2 : manipMatchesB s k m = false := by simpa using hm
      simp only [hm2, Bool.false_eq_true, if_false] at h ⊢
      exact ih h

theorem firstMatch_none_of_from_ne (xs : List Manip) (k : Key) (s : State)
    (h : ∀ m ∈ xs, ¬ m.from_def.key_code = k) :
    firstMatch xs k s = none := by
  apply List.find?_eq_none.mpr
  intro m hm
  simp [manipMatchesB, h m hm]

theorem SLOTS_eq : List.range' 1 MULTI_SLOT_COUNT = [1, 2, 3] := by decide

theorem QUEUE_KEYS_expand : QUEUE_KEYS =
    [Key.a, Key.b, Key.c, Key.d, Key.e, Key.g, Key.h, Key.i, Key.j, Key.k,
     Key.l, Key.m, Key.n, Key.o, Key.p, Key.q, Key.r, Key.s, Key.t, Key.u,
     Key.v, Key.w, Key.x, Key.y, Key.z] := by decide

theorem processDown_some_eq (ms : List Manip) (k : Key) (s : State) (m : Manip)
    (hfm : firstMatch ms k s = some m) :
    processDown ms k s = runTo m.to_events s := by
  simp [processDown, hfm]

theorem processDown_none_eq (ms : List Manip) (k : Key) (s : State)
    (hfm : firstMatch ms k s = none) :
    processDown ms k s = ([k], s) := by
  simp [processDown, hfm]

theorem runTo_activation_actions (k t : Key) (s : State) :
    runTo [setv V.f_was_modifier 1, setv (V.queued k) 0, toKey t] s =
      ([t], Function.update (Function.update s V.f_was_modifier 1) (V.queued k) 0) := by
  simp [runTo, setv, toKey, evalConds, evalCond]

theorem second_press_case (k t : Key) (s : State)
    (hne : V.f_was_modifier ≠ V.queued k)
    (hfm : firstMatch allManipulators k s =
      some (create_vim_second_press_activator k t)) :
    (processDown allManipulators k s).1 = [t] ∧
    (processDown allManipulators k s).2 V.f_was_modifier = 1 ∧
    (processDown allManipulators k s).2 (V.queued k) = 0 ∧
    (runTo main_to_after_key_up ((processDown allManipulators k s).2)).1 = [] := by
  have hpd : processDown allManipulators k s =
      runTo (create_vim_second_press_activator k t).to_events s := by
    simp [processDown, hfm]
  have hto : (create_vim_second_press_activator k t).to_events =
      [setv V.f_was_modifier 1, setv (V.queued k) 0, toKey t] := rfl
  rw [hpd, hto, runTo_activation_actions]
  have hfwm : (Function.update (Function.update s V.f_was_modifier 1) (V.queued k) 0)
      V.f_was_modifier = 1 := by
    rw [Function.update_noteq hne, Function.update_same]
  refine ⟨rfl, hfwm, ?_, ?_⟩
  · exact Function.update_same (V.queued k) 0 _
  · exact replay_empty_of_modifier _ hfwm

theorem c6_master (k : Key) (s : State)
    (hbool : ∀ i ∈ ([1, 2, 3] : List Nat),
      s (V.queued_slot k i) = 0 ∨ s (V.queued_slot k i) = 1)
    (hnv : (decide (k ∈ VIM_NAV_KEYS) || decide (k ∈ VIM_FKEY_KEYS)) = false)
    (hfm1 : s (V.queued_slot k 1) = 0 →
      firstMatch allManipulators k s =
        some (create_queue_manipulator k (some 1) none none none))
    (hfm2 : s (V.queued_slot k 1) = 1 → s (V.queued_slot k 2) = 0 →
      firstMatch allManipulators k s =
        some (create_queue_manipulator k (some 2) none none none))
    (hfm3 : s (V.queued_slot k 1) = 1 → s (V.queued_slot k 2) = 1 →
      s (V.queued_slot k 3) = 0 →
      firstMatch allManipulators k s =
        some (create_queue_manipulator k (some 3) none none none))
    (hfm4 : s (V.queued_slot k 1) = 1 → s (V.queued_slot k 2) = 1 →
      s (V.queued_slot k 3) = 1 → firstMatch allManipulators k s = none)
    (hpre : prefixOcc s k) :
    prefixOcc ((processDown allManipulators k s).2) k ∧
    (∀ i : Nat, s (V.queued_slot k i) = 1 →
      (processDown allManipulators k s).2 (V.queued_slot k i) = 1) ∧
    filledCount ((processDown allManipulators k s).2) k =
      min (filledCount s k + 1) 3 ∧
    (filledCount s k < 3 → (processDown allManipulators k s).1 = []) := by
  have hrunN : ∀ n : Nat,
      runTo (create_queue_manipulator k (some n) none none none).to_events s =
        ([], Function.update s (V.queued_slot k n) 1) := by
    intro n
    simp [create_queue_manipulator, create_basic_manipulator, hnv, runTo, setv,
      evalConds, evalCond]
  rcases hbool 1 (by decide) with hb1 | hb1
  · -- slot 1 empty: the press fills slot 1
    have hb2 : s (V.queued_slot k 2) = 0 := by
      rcases hbool 2 (by decide) with h | h
      · exact h
      · exact absurd (hpre.1 h) (by simp [hb1])
    have hb3 : s (V.queued_slot k 3) = 0 := by
      rcases hbool 3 (by decide) with h | h
      · exact h
      · exact absurd (hpre.2 h) (by simp [hb2])
    rw [processDown_some_eq _ _ _ _ (hfm1 hb1), hrunN 1]
    refine ⟨?_, ?_, ?_, ?_⟩
    · simp [prefixOcc, Function.update_apply, hb2, hb3]
    · intro i hi
      simp [Function.update_apply, hi]
    · simp [filledCount, Function.update_apply, hb1, hb2, hb3]
    · intro _; rfl
  · rcases hbool 2 (by decide) with hb2 | hb2
    · -- slot 1 filled, slot 2 empty: the press fills slot 2
      have hb3 : s (V.queued_slot k 3) = 0 := by
        rcases hbool 3 (by decide) with h | h
        · exact h
        · exact absurd (hpre.2 h) (by simp [hb2])
      rw [processDown_some_eq _ _ _ _ (hfm2 hb1 hb2), hrunN 2]
      refine ⟨?_, ?_, ?_, ?_⟩
      · simp [prefixOcc, Function.update_apply, hb1, hb3]
      · intro i hi
        simp [Function.update_apply, hi]
      · simp [filledCount, Function.update_apply, hb1, hb2, hb3]
      · intro _; rfl
    · rcases hbool 3 (by decide) with hb3 | hb3
      · -- slots 1 and 2 filled, slot 3 empty: the press fills slot 3
        rw [processDown_some_eq _ _ _ _ (hfm3 hb1 hb2 hb3), hrunN 3]
        refine ⟨?_, ?_, ?_, ?_⟩
        · simp [prefixOcc, Function.update_apply, hb1, hb2]
        · intro i hi
          simp [Function.update_apply, hi]
        · simp [filledCount, Function.update_apply, hb1, hb2, hb3]
        · intro _; rfl
      · -- all slots filled: no manipulator matches, the event passes through
        rw [processDown_none_eq _ _ _ (hfm4 hb1 hb2 hb3)]
        refine ⟨hpre, fun i hi => hi, ?_, ?_⟩
        · simp [filledCount, hb1, hb2, hb3]
        · intro hlt
          exfalso
          simp [filledCount, hb1, hb2, hb3] at hlt

/-- C1: for every Pending episode that ends with the layer key's Up
before activation (`f_was_modifier = 0`), the replay emits, in order,
the layer key's own tap output `f` first, then each queued letter key in
alphabetical order (each multi-slot key's filled slots in slot order),
then each queued additional key in the fixed configured list order
(`ADDITIONAL_QUEUE_KEYS`); `QUEUE_KEYS` is alphabetically sorted. -/
theorem c1_replay_order (s : State) (h : s V.f_was_modifier = 0) :
    (runTo main_to_after_key_up s).1 =
      Key.f :: (specReplayLetters s ++ specReplayAdditional s) ∧
    List.Sorted (fun x y => alphaIdx x < alphaIdx y) QUEUE_KEYS := by
  constructor
  · rw [main_after_up_fst_eq]
    simp [staticOut, main_to_after_key_up, QUEUE_KEYS_expand, ADDITIONAL_QUEUE_KEYS,
      multiSlotAfterEntries, singleAfterEntries, SLOTS_eq,
      specReplayLetters, specReplayAdditional, toKeyIf, setv,
      evalConds, evalCond, MULTI_SLOT_KEYS, h]
  · decide

/-- C1 witness: with `d`, `i` and `spacebar` queued, releasing F before
activation replays `f`, `d`, `i`, `spacebar` in that order ("diff "). -/
theorem c1_replay_order_witness :
    sDiff V.f_was_modifier = 0 ∧
    (runTo main_to_after_key_up sDiff).1 =
      Key.f :: (specReplayLetters sDiff ++ specReplayAdditional sDiff) ∧
    (runTo main_to_after_key_up sDiff).1 =
      [Key.f, Key.d, Key.i, Key.spacebar] :=
  ⟨by decide, (c1_replay_order sDiff (by decide)).1, by decide⟩

/-- C8: after the layer key's release (`to_after_key_up` of the main F
manipulator, the single teardown path of every episode), every episode
variable — the three state flags, every queue variable and every
armed-once flag — is reset to 0, for any starting state. -/
theorem c8_teardown_resets (s : State) (v : V) (hv : v ∈ episodeVars) :
    ((runTo main_to_after_key_up s).2) v = 0 := by
  apply runTo_snd_of_cleared
  have hall : episodeVars.all (clearedBy main_to_after_key_up) = true := by decide
  exact List.all_eq_true.mp hall v hv

/-- C8 witness: after teardown from the "diff" episode state, the
`f_pressed` flag and the queued `d` variable read 0. -/
theorem c8_teardown_resets_witness :
    ((runTo main_to_after_key_up sDiff).2) V.f_pressed = 0 ∧
    ((runTo main_to_after_key_up sDiff).2) (V.queued Key.d) = 0 :=
  ⟨c8_teardown_resets sDiff V.f_pressed (by decide),
   c8_teardown_resets sDiff (V.queued Key.d) (by decide)⟩

/-- C10: every manipulator in the generated configuration declares its
from-key with `modifiers: {optional: [any]}`, so each remapping still
matches when arbitrary additional physical modifiers are held. -/
theorem c10_optional_any_modifiers (m : Manip) (hm : m ∈ allManipulators) :
    m.from_def.optionalModifiers = [FromModifier.any] := by
  have hall : allManipulators.all
      (fun m2 => decide (m2.from_def.optionalModifiers = [FromModifier.any])) = true := by
    decide
  exact of_decide_eq_true (List.all_eq_true.mp hall m hm)

/-- C10 witness: the main F manipulator is in the configuration and
declares optional-any modifiers. -/
theorem c10_optional_any_modifiers_witness :
    create_f_key_main_manipulator.from_def.optionalModifiers = [FromModifier.any] :=
  c10_optional_any_modifiers create_f_key_main_manipulator (by decide)

/-- C9 counterexample: the first manipulator of the generated
configuration is the Left Control tap/hold manipulator, not the layer
key's own handling — the claimed priority order (layer-key controller
first, tap/hold controllers after the dispatch lookups) is not the
order the configuration lists. -/
theorem c9_priority_counterexample :
    (allManipulators.map (fun m => m.from_def.key_code)).head? =
      some Key.left_control ∧
    Key.left_control ≠ Key.f := by decide

/-- C9 amended: the generated configuration lists the matchers in this
fixed order: the generic tap/hold controllers first (Control, Left
Shift, Right Shift), then the layer key's own handling, then the
second-press activators, then the layer-dispatch lookups, then the
waiting-buffer interceptors (alphabet keys, then additional keys). -/
theorem c9_priority_order :
    allManipulators =
      create_ctrl_rule.manipulators ++
      (create_shift_rule true).manipulators ++
      (create_shift_rule false).manipulators ++
      ([create_f_key_main_manipulator] ++
       second_press_activators ++
       vim_layer_manipulators ++
       queue_alpha_manipulators ++
       queue_additional_manipulators) := rfl

/-- C7 counterexample: the Left Shift tap/hold rule's hold output does
not use lazy modifier emission (its `to` entry has `lazy` false), while
the Control rule's does — so "every generic tap/hold controller uses
lazy modifier emission" is false. -/
theorem c7_lazy_counterexample :
    (create_shift_rule true).manipulators.all
      (fun m => m.to_events.all (fun e => e.isLazy)) = false ∧
    create_ctrl_rule.manipulators.all
      (fun m => m.to_events.all (fun e => e.isLazy)) = true := by decide

/-- C7 amended: each simple-modifier tap/hold rule declares a tap output
(`to_if_alone`) and a hold output, but only the Control rule uses lazy
modifier emission (`to` = left_control with `lazy` true, tap escape,
held-down left_control, both thresholds the tapping term); the Shift
rules assert the shift modifier immediately on press (`to` entry without
`lazy`, no `to_if_held_down`) and tap emits shift+9 / shift+0. -/
theorem c7_tap_hold_structure :
    create_ctrl_rule.manipulators.map
      (fun m => (m.to_events, m.to_if_alone, m.to_if_held_down, m.parameters)) =
      [([{ act := ToAct.keyOut Key.left_control [], isLazy := true, conds := [] }],
        [toKey Key.escape],
        [toKey Key.left_control],
        { alone_timeout := some TAPPING_TERM_MS,
          held_threshold := some TAPPING_TERM_MS })] ∧
    (create_shift_rule true).manipulators.map
      (fun m => (m.to_events, m.to_if_alone, m.to_if_held_down, m.parameters)) =
      [([toKey Key.left_shift],
        [toKeyMods Key.num9 [Key.left_shift]],
        [],
        { alone_timeout := some TAPPING_TERM_MS, held_threshold := none })] ∧
    (create_shift_rule false).manipulators.map
      (fun m => (m.to_events, m.to_if_alone, m.to_if_held_down, m.parameters)) =
      [([toKey Key.right_shift],
        [toKeyMods Key.num0 [Key.right_shift]],
        [],
        { alone_timeout := some TAPPING_TERM_MS, held_threshold := none })] := by
  refine ⟨rfl, rfl, rfl⟩

/-- C3: for every secondary key with a layer-dispatch mapping (nav keys
and function-row keys), a press while `f_pressed = 1`, the armed-once
flag set and still Pending (`f_was_modifier = 0`) activates the layer
immediately (`f_was_modifier` becomes 1), emits the mapped output
exactly once, and clears that key's queued entry, so the eventual
layer-key Up replays nothing for it. -/
theorem c3_second_press_activation (k t : Key) (hk : (k, t) ∈ dispatchPairs)
    (s : State) (h1 : s V.f_pressed = 1) (h2 : s (V.pressed_once k) = 1)
    (h3 : s V.f_was_modifier = 0) :
    (processDown allManipulators k s).1 = [t] ∧
    (processDown allManipulators k s).2 V.f_was_modifier = 1 ∧
    (processDown allManipulators k s).2 (V.queued k) = 0 ∧
    (runTo main_to_after_key_up ((processDown allManipulators k s).2)).1 = [] := by
  fin_cases hk <;>
    (apply second_press_case <;>
      simp [firstMatch, allManipulators, generate_config, create_ctrl_rule,
        create_shift_rule, create_f_rule, create_f_key_main_manipulator,
        create_basic_manipulator, second_press_activators, vim_layer_manipulators,
        queue_alpha_manipulators, queue_additional_manipulators,
        create_vim_second_press_activator, create_vim_layer_manipulator_with_variables,
        create_queue_manipulator, VIM_LAYER_NAV_MAPPINGS, VIM_LAYER_FKEY_MAPPINGS,
        QUEUE_KEYS, ALL_ALPHA_KEYS, LETTERS, MULTI_SLOT_KEYS, VIM_NAV_KEYS, VIM_FKEY_KEYS,
        ADDITIONAL_QUEUE_KEYS, manipMatchesB, evalConds, evalCond, List.find?,
        h1, h2, h3])

/-- C3 witness: `j` armed once during a Pending episode; its second
press emits `down_arrow` once, activates the layer, clears the queued
entry, and the eventual Up replays nothing. -/
theorem c3_second_press_activation_witness :
    ((Key.j, Key.down_arrow) ∈ dispatchPairs) ∧
    (processDown allManipulators Key.j sOnceJ).1 = [Key.down_arrow] ∧
    (processDown allManipulators Key.j sOnceJ).2 V.f_was_modifier = 1 ∧
    (processDown allManipulators Key.j sOnceJ).2 (V.queued Key.j) = 0 ∧
    (runTo main_to_after_key_up
      ((processDown allManipulators Key.j sOnceJ).2)).1 = [] := by
  have h := c3_second_press_activation Key.j Key.down_arrow (by decide) sOnceJ
    (by decide) (by decide) (by decide)
  exact ⟨by decide, h.1, h.2.1, h.2.2.1, h.2.2.2⟩

/-- C2 counterexample: with all three slots of `o` filled during a
Pending episode, a fourth press of `o` matches no manipulator and IS
forwarded unmodified to the output sink (output `[o]`), contradicting
"the extra press is never forwarded"; no warning mechanism exists in
the generated configuration. -/
theorem c2_overflow_counterexample :
    processDown allManipulators Key.o sOverflowO = ([Key.o], sOverflowO) := rfl

/-- C2 amended: a press of a multi-slot key whose three slots are all
filled during a Pending episode is never recorded in any slot and
changes no state, but it is forwarded unmodified to the output sink
(the event passes through because no queue manipulator matches), and no
warning is raised. -/
theorem c2_overflow_forwarded (k : Key) (hk : k ∈ MULTI_SLOT_KEYS) (s : State)
    (h1 : s V.f_pressed = 1) (h3 : s V.f_was_modifier = 0)
    (hs1 : s (V.queued_slot k 1) = 1) (hs2 : s (V.queued_slot k 2) = 1)
    (hs3 : s (V.queued_slot k 3) = 1) :
    processDown allManipulators k s = ([k], s) := by
  fin_cases hk <;>
    exact processDown_none_eq _ _ _ (by
      simp [firstMatch, allManipulators, generate_config, create_ctrl_rule,
        create_shift_rule, create_f_rule, create_f_key_main_manipulator,
        create_basic_manipulator, second_press_activators, vim_layer_manipulators,
        queue_alpha_manipulators, queue_additional_manipulators,
        create_vim_second_press_activator, create_vim_layer_manipulator_with_variables,
        create_queue_manipulator, VIM_LAYER_NAV_MAPPINGS, VIM_LAYER_FKEY_MAPPINGS,
        QUEUE_KEYS, ALL_ALPHA_KEYS, LETTERS, MULTI_SLOT_KEYS, VIM_NAV_KEYS, VIM_FKEY_KEYS,
        ADDITIONAL_QUEUE_KEYS, manipMatchesB, evalConds, evalCond, List.find?,
        h1, h3, hs1, hs2, hs3])

/-- C2 amended witness: the fourth press of `o` with all slots filled
passes through as `o` with the state unchanged. -/
theorem c2_overflow_forwarded_witness :
    Key.o ∈ MULTI_SLOT_KEYS ∧
    processDown allManipulators Key.o sOverflowO = ([Key.o], sOverflowO) :=
  ⟨by decide, c2_overflow_forwarded Key.o (by decide) sOverflowO (by decide)
    (by decide) (by decide) (by decide) (by decide)⟩

/-- C4 counterexample: at the Pending→Active transition (the main F
manipulator's `to_if_held_down` firing) with `d` queued, the queued
variable is NOT cleared to 0 — it still reads 1 afterwards. -/
theorem c4_no_clear_at_activation_counterexample :
    ((runTo create_f_key_main_manipulator.to_if_held_down sQueuedD).2)
      (V.queued Key.d) = 1 ∧
    ((runTo create_f_key_main_manipulator.to_if_held_down sQueuedD).2)
      (V.pressed_once Key.h) = 0 ∧
    sQueuedD (V.queued Key.d) = 1 := ⟨rfl, rfl, rfl⟩

/-- C4 amended: at the Pending→Active transition the configuration sets
`f_was_modifier` to 1 and `f_tapping` to 0 but leaves every queue
variable and every armed-once flag unchanged (they are cleared only on
the layer key's Up); the buffer is discarded in effect because with
`f_was_modifier = 1` the replay emits nothing. -/
theorem c4_activation_keeps_buffer_suppresses_replay (s : State) :
    ((runTo create_f_key_main_manipulator.to_if_held_down s).2)
      V.f_was_modifier = 1 ∧
    ((runTo create_f_key_main_manipulator.to_if_held_down s).2)
      V.f_tapping = 0 ∧
    (∀ v ∈ allQueueVars,
      ((runTo create_f_key_main_manipulator.to_if_held_down s).2) v = s v) ∧
    (∀ v ∈ allOnceVars,
      ((runTo create_f_key_main_manipulator.to_if_held_down s).2) v = s v) ∧
    (runTo main_to_after_key_up
      ((runTo create_f_key_main_manipulator.to_if_held_down s).2)).1 = [] := by
  have hrun : runTo create_f_key_main_manipulator.to_if_held_down s =
      ([], Function.update (Function.update s V.f_tapping 0) V.f_was_modifier 1) := by
    simp [create_f_key_main_manipulator, create_basic_manipulator, runTo, setv,
      evalConds, evalCond]
  rw [hrun]
  have hfwm : (Function.update (Function.update s V.f_tapping 0) V.f_was_modifier 1)
      V.f_was_modifier = 1 := Function.update_same _ _ _
  have hqv : ∀ v ∈ allQueueVars, v ≠ V.f_tapping ∧ v ≠ V.f_was_modifier := by decide
  have hov : ∀ v ∈ allOnceVars, v ≠ V.f_tapping ∧ v ≠ V.f_was_modifier := by decide
  refine ⟨hfwm, ?_, ?_, ?_, replay_empty_of_modifier _ hfwm⟩
  · show (Function.update (Function.update s V.f_tapping 0) V.f_was_modifier 1)
      V.f_tapping = 0
    rw [Function.update_noteq (by decide), Function.update_same]
  · intro v hv
    show (Function.update (Function.update s V.f_tapping 0) V.f_was_modifier 1) v = s v
    rw [Function.update_noteq (hqv v hv).2, Function.update_noteq (hqv v hv).1]
  · intro v hv
    show (Function.update (Function.update s V.f_tapping 0) V.f_was_modifier 1) v = s v
    rw [Function.update_noteq (hov v hv).2, Function.update_noteq (hov v hv).1]

/-- C4 amended witness: from the state with `d` queued, activation sets
`f_was_modifier`, preserves the queued `d` variable, and the replay
after activation emits nothing. -/
theorem c4_activation_keeps_buffer_witness :
    ((runTo create_f_key_main_manipulator.to_if_held_down sQueuedD).2)
      V.f_was_modifier = 1 ∧
    ((runTo create_f_key_main_manipulator.to_if_held_down sQueuedD).2)
      (V.queued Key.d) = sQueuedD (V.queued Key.d) ∧
    (runTo main_to_after_key_up
      ((runTo create_f_key_main_manipulator.to_if_held_down sQueuedD).2)).1 = [] := by
  have h := c4_activation_keeps_buffer_suppresses_replay sQueuedD
  exact ⟨h.1, h.2.2.1 (V.queued Key.d) (by decide), h.2.2.2.2⟩

/-- C5: for every secondary key with a layer-dispatch mapping, the
generated configuration attaches a hold-to-activate path: a manipulator
for that key whose held-down threshold is `VIM_KEY_HOLD_MS`, the
configured value being the tapping term plus 10 ms (160 ms with the
150 ms tapping term), whose held-down actions activate the layer and
emit the mapped output; afterwards (layer active, F held) every press
event of the key emits the mapped output again, giving per-event
repetition. -/
theorem c5_hold_to_activate (k t : Key) (hk : (k, t) ∈ dispatchPairs)
    (s : State) (h1 : s V.f_pressed = 1) (h2 : s V.f_was_modifier = 1) :
    VIM_KEY_HOLD_MS = TAPPING_TERM_MS + 10 ∧
    VIM_KEY_HOLD_MS = 160 ∧ TAPPING_TERM_MS = 150 ∧
    (∃ m ∈ allManipulators, m.from_def.key_code = k ∧
      m.parameters.held_threshold = some VIM_KEY_HOLD_MS ∧
      m.to_if_held_down =
        [setv V.f_was_modifier 1, setv (V.queued k) 0, toKey t]) ∧
    (∀ s2 : State,
      (runTo [setv V.f_was_modifier 1, setv (V.queued k) 0, toKey t] s2).1 = [t] ∧
      (runTo [setv V.f_was_modifier 1, setv (V.queued k) 0, toKey t] s2).2
        V.f_was_modifier = 1) ∧
    (processDown allManipulators k s).1 = [t] ∧
    (processDown allManipulators k s).2 = s := by
  have hbehave : ∀ s2 : State,
      (runTo [setv V.f_was_modifier 1, setv (V.queued k) 0, toKey t] s2).1 = [t] ∧
      (runTo [setv V.f_was_modifier 1, setv (V.queued k) 0, toKey t] s2).2
        V.f_was_modifier = 1 := by
    intro s2
    rw [runTo_activation_actions]
    exact ⟨rfl, by
      show (Function.update (Function.update s2 V.f_was_modifier 1) (V.queued k) 0)
        V.f_was_modifier = 1
      rw [Function.update_noteq (by simp), Function.update_same]⟩
  fin_cases hk <;>
    exact ⟨rfl, rfl, rfl, by decide, hbehave,
      by simp [processDown, firstMatch, allManipulators, generate_config,
        create_ctrl_rule, create_shift_rule, create_f_rule,
        create_f_key_main_manipulator, create_basic_manipulator,
        second_press_activators, vim_layer_manipulators,
        queue_alpha_manipulators, queue_additional_manipulators,
        create_vim_second_press_activator, create_vim_layer_manipulator_with_variables,
        create_queue_manipulator, VIM_LAYER_NAV_MAPPINGS, VIM_LAYER_FKEY_MAPPINGS,
        QUEUE_KEYS, ALL_ALPHA_KEYS, LETTERS, MULTI_SLOT_KEYS, VIM_NAV_KEYS,
        VIM_FKEY_KEYS, ADDITIONAL_QUEUE_KEYS, manipMatchesB, evalConds, evalCond,
        List.find?, runTo, toKey, h1, h2],
      by simp [processDown, firstMatch, allManipulators, generate_config,
        create_ctrl_rule, create_shift_rule, create_f_rule,
        create_f_key_main_manipulator, create_basic_manipulator,
        second_press_activators, vim_layer_manipulators,
        queue_alpha_manipulators, queue_additional_manipulators,
        create_vim_second_press_activator, create_vim_layer_manipulator_with_variables,
        create_queue_manipulator, VIM_LAYER_NAV_MAPPINGS, VIM_LAYER_FKEY_MAPPINGS,
        QUEUE_KEYS, ALL_ALPHA_KEYS, LETTERS, MULTI_SLOT_KEYS, VIM_NAV_KEYS,
        VIM_FKEY_KEYS, ADDITIONAL_QUEUE_KEYS, manipMatchesB, evalConds, evalCond,
        List.find?, runTo, toKey, h1, h2]⟩

/-- C5 witness: for `j` → `down_arrow`, with the layer active and F
held, the configured threshold facts hold and a press of `j` emits
`down_arrow` with the state unchanged. -/
theorem c5_hold_to_activate_witness :
    ((Key.j, Key.down_arrow) ∈ dispatchPairs) ∧
    VIM_KEY_HOLD_MS = 160 ∧
    (∃ m ∈ allManipulators, m.from_def.key_code = Key.j ∧
      m.parameters.held_threshold = some VIM_KEY_HOLD_MS ∧
      m.to_if_held_down =
        [setv V.f_was_modifier 1, setv (V.queued Key.j) 0, toKey Key.down_arrow]) ∧
    (processDown allManipulators Key.j sVimActive).1 = [Key.down_arrow] ∧
    (processDown allManipulators Key.j sVimActive).2 = sVimActive := by
  have h := c5_hold_to_activate Key.j Key.down_arrow (by decide) sVimActive
    (by decide) (by decide)
  exact ⟨by decide, h.2.1, h.2.2.2.1, h.2.2.2.2.2.1, h.2.2.2.2.2.2⟩

/-- C6: for every multi-slot key, within a Pending episode (slot values
boolean, occupancy a prefix of the slots), a press preserves prefix
occupancy, never unfills a filled slot (each slot is filled at most
once, append-only), fills exactly the next free slot (the filled count
becomes `min (count + 1) 3`), and emits nothing while a free slot
exists. -/
theorem c6_slot_occupancy (k : Key) (hk : k ∈ MULTI_SLOT_KEYS) (s : State)
    (h1 : s V.f_pressed = 1) (h3 : s V.f_was_modifier = 0)
    (hbool : ∀ i ∈ ([1, 2, 3] : List Nat),
      s (V.queued_slot k i) = 0 ∨ s (V.queued_slot k i) = 1)
    (hpre : prefixOcc s k) :
    prefixOcc ((processDown allManipulators k s).2) k ∧
    (∀ i : Nat, s (V.queued_slot k i) = 1 →
      (processDown allManipulators k s).2 (V.queued_slot k i) = 1) ∧
    filledCount ((processDown allManipulators k s).2) k =
      min (filledCount s k + 1) 3 ∧
    (filledCount s k < 3 → (processDown allManipulators k s).1 = []) := by
  fin_cases hk <;>
    exact c6_master _ s hbool (by decide)
      (fun hb1 => by
        simp [firstMatch, allManipulators, generate_config, create_ctrl_rule,
          create_shift_rule, create_f_rule, create_f_key_main_manipulator,
          create_basic_manipulator, second_press_activators, vim_layer_manipulators,
          queue_alpha_manipulators, queue_additional_manipulators,
          create_vim_second_press_activator, create_vim_layer_manipulator_with_variables,
          create_queue_manipulator, VIM_LAYER_NAV_MAPPINGS, VIM_LAYER_FKEY_MAPPINGS,
          QUEUE_KEYS, ALL_ALPHA_KEYS, LETTERS, MULTI_SLOT_KEYS, VIM_NAV_KEYS,
          VIM_FKEY_KEYS, ADDITIONAL_QUEUE_KEYS, manipMatchesB, evalConds, evalCond,
          List.find?, h1, h3, hb1])
      (fun hb1 hb2 => by
        simp [firstMatch, allManipulators, generate_config, create_ctrl_rule,
          create_shift_rule, create_f_rule, create_f_key_main_manipulator,
          create_basic_manipulator, second_press_activators, vim_layer_manipulators,
          queue_alpha_manipulators, queue_additional_manipulators,
          create_vim_second_press_activator, create_vim_layer_manipulator_with_variables,
          create_queue_manipulator, VIM_LAYER_NAV_MAPPINGS, VIM_LAYER_FKEY_MAPPINGS,
          QUEUE_KEYS, ALL_ALPHA_KEYS, LETTERS, MULTI_SLOT_KEYS, VIM_NAV_KEYS,
          VIM_FKEY_KEYS, ADDITIONAL_QUEUE_KEYS, manipMatchesB, evalConds, evalCond,
          List.find?, h1, h3, hb1, hb2])
      (fun hb1 hb2 hb3 => by
        simp [firstMatch, allManipulators, generate_config, create_ctrl_rule,
          create_shift_rule, create_f_rule, create_f_key_main_manipulator,
          create_basic_manipulator, second_press_activators, vim_layer_manipulators,
          queue_alpha_manipulators, queue_additional_manipulators,
          create_vim_second_press_activator, create_vim_layer_manipulator_with_variables,
          create_queue_manipulator, VIM_LAYER_NAV_MAPPINGS, VIM_LAYER_FKEY_MAPPINGS,
          QUEUE_KEYS, ALL_ALPHA_KEYS, LETTERS, MULTI_SLOT_KEYS, VIM_NAV_KEYS,
          VIM_FKEY_KEYS, ADDITIONAL_QUEUE_KEYS, manipMatchesB, evalConds, evalCond,
          List.find?, h1, h3, hb1, hb2, hb3])
      (fun hb1 hb2 hb3 => by
        simp [firstMatch, allManipulators, generate_config, create_ctrl_rule,
          create_shift_rule, create_f_rule, create_f_key_main_manipulator,
          create_basic_manipulator, second_press_activators, vim_layer_manipulators,
          queue_alpha_manipulators, queue_additional_manipulators,
          create_vim_second_press_activator, create_vim_layer_manipulator_with_variables,
          create_queue_manipulator, VIM_LAYER_NAV_MAPPINGS, VIM_LAYER_FKEY_MAPPINGS,
          QUEUE_KEYS, ALL_ALPHA_KEYS, LETTERS, MULTI_SLOT_KEYS, VIM_NAV_KEYS,
          VIM_FKEY_KEYS, ADDITIONAL_QUEUE_KEYS, manipMatchesB, evalConds, evalCond,
          List.find?, h1, h3, hb1, hb2, hb3])
      hpre

/-- C6 witness: with slot 1 of `o` filled, a press of `o` fills slot 2:
prefix occupancy is preserved, slot 1 stays filled, the filled count
becomes 2, and nothing is emitted. -/
theorem c6_slot_occupancy_witness :
    prefixOcc ((processDown allManipulators Key.o sSlotO1).2) Key.o ∧
    (processDown allManipulators Key.o sSlotO1).2 (V.queued_slot Key.o 1) = 1 ∧
    filledCount ((processDown allManipulators Key.o sSlotO1).2) Key.o =
      min (filledCount sSlotO1 Key.o + 1) 3 ∧
    (processDown allManipulators Key.o sSlotO1).1 = [] := by
  have h := c6_slot_occupancy Key.o (by decide) sSlotO1 (by decide) (by decide)
    (by decide) (by unfold prefixOcc; exact ⟨by decide, by decide⟩)
  exact ⟨h.1, h.2.1 1 (by decide), h.2.2.1, h.2.2.2 (by decide)⟩
